import Mathlib

/-!
Verification development for the connection-lifecycle core of a WebSocket
transport (`src/conn.go`): the idempotent close protocol, the cancellable
mutex `mu`, the deadline watchdog `timeoutLoop`, the ping/pong tracker, and
the compression-threshold derivation in `newConn`.

The Go code is shallowly embedded.  Connection state is an explicit record;
each Go critical section (everything under `closeMu`, one iteration of the
watchdog's `select`, one call to `mu.lock`) is one atomic Lean function
application.  Nondeterministic `select` branch choice is an explicit argument,
with the readiness conditions of the chosen branch appearing as hypotheses of
the theorems.  External collaborators (the frame codec's `writeControl` /
`writeError`, the transport's `Close`) are modelled by their observable
results, supplied as parameters or recorded as counters.
-/

namespace Websocket

/-- Go `error` values as used by `conn.go`: `errClosed` is `net.ErrClosed`,
`new` is `errors.New(msg)`, `wrap msg e` is `fmt.Errorf(msg + ": %w", e)`,
and `base` stands for arbitrary distinct caller-supplied errors. -/
inductive Err where
  | base : Nat → Err
  | errClosed : Err
  | new : String → Err
  | wrap : String → Err → Err
deriving DecidableEq

/-- Go `context.Context` as the core consumes it: whether its `Done` channel
has fired, and the error `ctx.Err()` reports once it has. -/
structure Ctx where
  done : Bool
  cause : Err
deriving DecidableEq

/-- `context.Background()`: its `Done` channel never becomes ready. -/
def Ctx.background : Ctx := ⟨false, Err.new "Background"⟩

/-- Mutable state of a `Conn` (src/conn.go:45-84) as far as the lifecycle
claims observe it.  `closedFired` is whether `close(c.closed)` has happened
(the one-shot closed signal); `rwcCloseCount` counts invocations of
`c.rwc.Close()`; `rwcCloseErr` is the result the transport's `Close` returns;
`activePings` is the key set of the `activePings` map;
`policyCloseFrameSends` counts the asynchronous
`writeError(StatusPolicyViolation, ...)` attempts spawned by the watchdog. -/
structure Conn where
  closedFired : Bool
  closeErr : Option Err
  rwcCloseCount : Nat
  rwcCloseErr : Option Err
  finalizerSet : Bool
  msgWriterClosed : Bool
  msgReaderClosed : Bool
  activePings : List String
  policyCloseFrameSends : Nat
deriving DecidableEq

/-- Modelled from the spec: `isClosed` is not in src/conn.go; per the spec it
observes the one-shot closed signal ("once fired, every waiter observes it
exactly once and forever after"). -/
def Conn.isClosed (c : Conn) : Bool := c.closedFired

/-- Modelled from the spec: `setCloseErrLocked` is not in src/conn.go; per the
spec "The close error is set at most once; the first error to reach it wins
and is the one ever after returned to callers of close-observing
operations." -/
def Conn.setCloseErrLocked (c : Conn) (err : Option Err) : Conn :=
  if c.closeErr = none then { c with closeErr := err } else c

/-- Modelled from the spec: `setCloseErr` is not in src/conn.go; it is
`setCloseErrLocked` under `closeMu` (used by the watchdog's read-timeout
path), with the same write-once, first-wins behavior. -/
def Conn.setCloseErr (c : Conn) (err : Option Err) : Conn :=
  c.setCloseErrLocked err

/-- `c.rwc.Close()`: closing the transport.  The returned error is the
transport's `rwcCloseErr`; the invocation is counted. -/
def Conn.rwcClose (c : Conn) : Conn :=
  { c with rwcCloseCount := c.rwcCloseCount + 1 }

/-- Embedding of `Conn.close` (src/conn.go:151-177).  The Go `closeMu`
serializes concurrent calls, so each serialized call is one atomic
application of this function.  If already closed it returns immediately;
otherwise a nil `err` is replaced by the transport close's result, the
close error is recorded first-wins, the closed signal fires, the finalizer
is cleared, the transport is closed (again), and a goroutine closes the
message writer then the message reader. -/
def Conn.close (c : Conn) (err : Option Err) : Conn :=
  if c.isClosed then c
  else
    let supplied : Option Err :=
      match err with
      | none => c.rwcCloseErr
      | some e => some e
    let c1 : Conn :=
      match err with
      | none => c.rwcClose
      | some _ => c
    let c2 := c1.setCloseErrLocked supplied
    let c3 : Conn := { c2 with closedFired := true, finalizerSet := false }
    let c4 := c3.rwcClose
    { c4 with msgWriterClosed := true, msgReaderClosed := true }

/-- N serialized calls to `Conn.close`, in the order the `closeMu` admitted
them. -/
def closeAll (c : Conn) (errs : List Err) : Conn :=
  errs.foldl (fun s e => s.close (some e)) c

/-- The `mu` token slot (src/conn.go:263-273): a one-capacity channel.
`some t` means task `t`'s token occupies the slot; the owner tag is a ghost
annotation — the Go token `struct{}{}` is ownerless. -/
abbrev MuSlot := Option Nat

/-- Embedding of `mu.tryLock` (src/conn.go:279-286): the non-blocking send
succeeds exactly when the slot is empty. -/
def muTryLock (caller : Nat) (slot : MuSlot) : Bool × MuSlot :=
  match slot with
  | none => (true, some caller)
  | some _ => (false, slot)

/-- Embedding of `mu.unlock` (src/conn.go:311-316): a select with a
non-blocking receive drains the token if present and hits the default branch
otherwise; it takes no caller identity, never blocks and never errors. -/
def muUnlock (slot : MuSlot) : MuSlot :=
  match slot with
  | some _ => none
  | none => slot

/-- Which branch of `mu.lock`'s outer select the Go runtime chose among the
ready cases. -/
inductive LockBranch where
  | closed
  | ctxDone
  | acquired
deriving DecidableEq

/-- Result of `mu.lock`: the returned error (`none` = success), the
connection state after the call, and the token slot after the call. -/
structure LockOut where
  res : Option Err
  conn : Conn
  slot : MuSlot
deriving DecidableEq

/-- Embedding of `mu.lock` (src/conn.go:288-309).  `br` is the select branch
taken (its readiness is a hypothesis of the theorems); `closedAtRecheck` is
the value of the closed signal observed by the inner re-check select, sampled
after the token was won — in a real execution it is `true` whenever the
signal had already fired, since the closed signal never re-arms. -/
def muLock (conn : Conn) (slot : MuSlot) (caller : Nat) (ctx : Ctx)
    (br : LockBranch) (closedAtRecheck : Bool) : LockOut :=
  match br with
  | .closed => ⟨some .errClosed, conn, slot⟩
  | .ctxDone =>
      let err := Err.wrap "failed to acquire lock" ctx.cause
      ⟨some err, conn.close (some err), slot⟩
  | .acquired =>
      if closedAtRecheck then
        ⟨some .errClosed, conn, muUnlock (some caller)⟩
      else
        ⟨none, conn, some caller⟩

/-- Events one iteration of `Conn.timeoutLoop`'s select (src/conn.go:183-201)
can react to: the closed signal, installation of a new write or read deadline
through the single-slot rendezvous channels, or expiry of the current read or
write deadline context. -/
inductive TLEvent where
  | closed
  | newWrite : Ctx → TLEvent
  | newRead : Ctx → TLEvent
  | readTimeout
  | writeTimeout
deriving DecidableEq

/-- State the watchdog task carries between iterations: the current read and
write deadline contexts and the shared connection state. -/
structure TLState where
  readCtx : Ctx
  writeCtx : Ctx
  conn : Conn
deriving DecidableEq

/-- Outcome of one watchdog iteration: keep looping with a new state, or
return from `timeoutLoop` (terminal). -/
inductive TLOut where
  | running : TLState → TLOut
  | stopped : Conn → TLOut
deriving DecidableEq

/-- One iteration of `Conn.timeoutLoop` (src/conn.go:183-201).  The chosen
event's readiness is a hypothesis of the theorems.  Read expiry records a
read-timeout close error (write-once) and spawns an asynchronous
`writeError(StatusPolicyViolation, ...)` — counted in
`policyCloseFrameSends` — then keeps looping; write expiry closes the
connection with a write-timeout cause and returns; the closed signal makes
the loop return. -/
def timeoutStep (s : TLState) (ev : TLEvent) : TLOut :=
  match ev with
  | .closed => .stopped s.conn
  | .newWrite ctx => .running { s with writeCtx := ctx }
  | .newRead ctx => .running { s with readCtx := ctx }
  | .readTimeout =>
      let c1 := s.conn.setCloseErr (some (.wrap "read timed out" s.readCtx.cause))
      let c2 : Conn := { c1 with policyCloseFrameSends := c1.policyCloseFrameSends + 1 }
      .running { s with conn := c2 }
  | .writeTimeout =>
      .stopped (s.conn.close (some (.wrap "write timed out" s.writeCtx.cause)))

/-- The watchdog loop run over a list of events, stopping at the first
terminal step. -/
def timeoutRun (s : TLState) : List TLEvent → TLOut
  | [] => .running s
  | ev :: evs =>
      match timeoutStep s ev with
      | .running s1 => timeoutRun s1 evs
      | .stopped c => .stopped c

/-- The read-deadline context held by the watchdog after processing a list of
events: each `newRead` installation fully replaces the previous one. -/
def lastReadCtx (init : Ctx) : List TLEvent → Ctx
  | [] => init
  | .newRead c :: evs => lastReadCtx c evs
  | _ :: evs => lastReadCtx init evs

/-- The write-deadline context held by the watchdog after processing a list
of events. -/
def lastWriteCtx (init : Ctx) : List TLEvent → Ctx
  | [] => init
  | .newWrite c :: evs => lastWriteCtx c evs
  | _ :: evs => lastWriteCtx init evs

/-- `c.activePings[p] = pong`: Go map assignment on the key set. -/
def pingsInsert (p : String) (l : List String) : List String :=
  if p ∈ l then l else p :: l

/-- `delete(c.activePings, p)`: Go map deletion on the key set. -/
def pingsErase (p : String) (l : List String) : List String :=
  l.filter (fun q => q ≠ p)

/-- Which branch of `Conn.ping`'s wait select (src/conn.go:244-253) was
taken, when the ping frame send succeeded. -/
inductive PingWait where
  | closed
  | ctxDone
  | pong
deriving DecidableEq

/-- Ordered observable actions of one `Conn.ping` call on the tracker and
the control writer. -/
inductive PingEv where
  | register : String → PingEv
  | send : String → PingEv
  | deregister : String → PingEv
deriving DecidableEq

/-- Result of `Conn.ping`: the returned error (`none` = pong received), the
connection state after the call, and the trace of tracker/send actions in
program order. -/
structure PingOut where
  res : Option Err
  conn : Conn
  trace : List PingEv
deriving DecidableEq

/-- Embedding of `Conn.ping` (src/conn.go:226-254).  `sendErr` is the result
of the external `writeControl(ctx, opPing, p)`; `w` is the wait-select branch
taken (consulted only when the send succeeded).  The pong sink is registered
under `p` before the send; the deferred deletion removes the registration on
every exit path. -/
def Conn.ping (conn : Conn) (ctx : Ctx) (p : String) (sendErr : Option Err)
    (w : PingWait) : PingOut :=
  let c1 : Conn := { conn with activePings := pingsInsert p conn.activePings }
  let fin : Conn → Conn := fun c => { c with activePings := pingsErase p c.activePings }
  let tr : List PingEv := [.register p, .send p, .deregister p]
  match sendErr with
  | some e => ⟨some e, fin c1, tr⟩
  | none =>
      match w with
      | .closed => ⟨some .errClosed, fin c1, tr⟩
      | .ctxDone =>
          let err := Err.wrap "failed to wait for pong" ctx.cause
          let c2 := c1.close (some err)
          ⟨some err, fin c2, tr⟩
      | .pong => ⟨none, fin c1, tr⟩

/-- Connection configuration (src/conn.go:86-95) as far as the threshold
derivation consults it: `hasCopts` is whether `copts` is non-nil (`c.flate()`,
src/conn.go:205-207). -/
structure ConnConfig where
  subprotocol : String
  client : Bool
  hasCopts : Bool
  flateThreshold : Int
deriving DecidableEq

/-- Compression-threshold derivation in `newConn` (src/conn.go:125-130).
`takeover` models the external `c.msgWriter.flateContextTakeover()` (frame
codec, outside this core): whether the negotiated writer keeps its flate
context across messages. -/
def newConnFlateThreshold (cfg : ConnConfig) (takeover : Bool) : Int :=
  if cfg.hasCopts ∧ cfg.flateThreshold = 0 then
    if ¬ takeover then 512 else 128
  else
    cfg.flateThreshold

/-- Little-endian decimal digits of `n`, with explicit fuel so that the
recursion is structural (the Go side is `strconv`'s division loop). -/
def digitsRevAux : Nat → Nat → List Nat
  | 0, _ => []
  | fuel + 1, n => if n = 0 then [] else n % 10 :: digitsRevAux fuel (n / 10)

/-- Little-endian decimal digits of `n` (`digitsRev 0 = []`). -/
def digitsRev (n : Nat) : List Nat := digitsRevAux n n

/-- Value of a little-endian decimal digit list; left inverse of
`digitsRev`. -/
def undigits : List Nat → Nat
  | [] => 0
  | d :: ds => d + 10 * undigits ds

/-- Decimal character string of a natural number, most significant digit
first, as `strconv` renders magnitudes. -/
def natToDecimal (n : Nat) : List Char :=
  if n = 0 then ['0'] else ((digitsRev n).reverse).map Nat.digitChar

/-- Embedding of Go `strconv.Itoa` on a (sign-extended) signed value:
decimal rendering with a leading minus sign for negatives. -/
def itoa (i : Int) : String :=
  if i < 0 then String.mk ('-' :: natToDecimal i.natAbs)
  else String.mk (natToDecimal i.toNat)

/-- Two's-complement interpretation of the low 32 bits of `n`, as Go's
`int(p)` sign-extends the `int32` counter. -/
def toInt32 (n : Nat) : Int :=
  if n % 2 ^ 32 < 2 ^ 31 then ((n % 2 ^ 32 : Nat) : Int)
  else ((n % 2 ^ 32 : Nat) : Int) - 2 ^ 32

/-- Payload generated by the `k`-th call to `Conn.Ping`
(src/conn.go:216-224): `atomic.AddInt32(&c.pingCounter, 1)` has returned
`k` truncated to 32 bits (the counter starts at zero and wraps), and the
payload is `strconv.Itoa(int(p))`. -/
def pingPayload (k : Nat) : String := itoa (toInt32 k)

/-- Connection state as `newConn` leaves it: open, no close error, transport
not yet closed, finalizer installed, empty ping tracker.  Used to instantiate
theorems at a concrete input. -/
def connInit : Conn :=
  { closedFired := false, closeErr := none, rwcCloseCount := 0,
    rwcCloseErr := none, finalizerSet := true, msgWriterClosed := false,
    msgReaderClosed := false, activePings := [], policyCloseFrameSends := 0 }

/-! Helper lemmas about the close protocol. -/

/-- A close call on an already-closed connection is a pure no-op
(src/conn.go:155-157). -/
theorem Conn.close_of_closed (c : Conn) (err : Option Err)
    (h : c.closedFired = true) : c.close err = c := by
  simp [Conn.close, Conn.isClosed, h]

/-- Any number of further serialized close calls on a closed connection are
pure no-ops. -/
theorem closeAll_of_closed (c : Conn) (es : List Err)
    (h : c.closedFired = true) : closeAll c es = c := by
  induction es with
  | nil => rfl
  | cons e es ih =>
      simp only [closeAll, List.foldl_cons] at *
      rw [Conn.close_of_closed c (some e) h, ih]

/-- Effect of the first close call with a non-nil error on an open
connection with no recorded close error. -/
theorem Conn.close_some_eq (c : Conn) (e : Err)
    (hf : c.closedFired = false) (he : c.closeErr = none) :
    c.close (some e) =
      { c with
        closeErr := some e
        closedFired := true
        finalizerSet := false
        rwcCloseCount := c.rwcCloseCount + 1
        msgWriterClosed := true
        msgReaderClosed := true } := by
  simp [Conn.close, Conn.isClosed, Conn.setCloseErrLocked, Conn.rwcClose, hf, he]

/-- C1: close is idempotent — for a connection not yet closed, the first of N
serialized calls to `close` with distinct non-nil errors permanently records
its error, fires the closed signal (exactly once: later calls change
nothing), closes the transport, and every subsequent call returns
immediately with no side effects, leaving the state — hence the recorded
error and the transport-close count — exactly as the first call left it. -/
theorem close_idempotent (c0 : Conn) (e : Err) (es : List Err)
    (hf : c0.closedFired = false) (he : c0.closeErr = none) :
    (c0.close (some e)).closedFired = true ∧
    (c0.close (some e)).closeErr = some e ∧
    (c0.close (some e)).rwcCloseCount = c0.rwcCloseCount + 1 ∧
    closeAll (c0.close (some e)) es = c0.close (some e) := by
  rw [Conn.close_some_eq c0 e hf he]
  refine ⟨rfl, rfl, rfl, ?_⟩
  exact closeAll_of_closed _ es rfl

/-- Witness for C1 at a concrete connection and error sequence. -/
theorem close_idempotent_witness :
    (connInit.close (some (.base 1))).closedFired = true ∧
    (connInit.close (some (.base 1))).closeErr = some (.base 1) ∧
    (connInit.close (some (.base 1))).rwcCloseCount = connInit.rwcCloseCount + 1 ∧
    closeAll (connInit.close (some (.base 1))) [.base 2, .base 3]
      = connInit.close (some (.base 1)) :=
  close_idempotent connInit (.base 1) [.base 2, .base 3] rfl rfl

/-- C2: if `mu.lock` wins the token while the closed signal has fired (or
fires concurrently, so that the post-win re-check observes it), the token is
released again and `net.ErrClosed` is returned; no branch of `lock` returns
success on a connection whose closed signal has fired. -/
theorem muLock_no_false_success (conn : Conn) (slot : MuSlot) (caller : Nat)
    (ctx : Ctx) (br : LockBranch) (cr : Bool)
    (hmono : conn.closedFired = true → cr = true)
    (hfired : conn.closedFired = true ∨ cr = true) :
    (muLock conn slot caller ctx br cr).res ≠ none ∧
    (br = .acquired →
      muLock conn slot caller ctx br cr = ⟨some .errClosed, conn, none⟩) := by
  have hcr : cr = true := hfired.elim hmono id
  cases br <;> simp [muLock, hcr, muUnlock]

/-- Witness for C2: the acquired branch on a closed connection releases the
token and reports `net.ErrClosed`. -/
theorem muLock_no_false_success_witness :
    (muLock { connInit with closedFired := true } none 5 Ctx.background
        .acquired true).res ≠ none ∧
    (LockBranch.acquired = .acquired →
      muLock { connInit with closedFired := true } none 5 Ctx.background
          .acquired true
        = ⟨some .errClosed, { connInit with closedFired := true }, none⟩) :=
  muLock_no_false_success { connInit with closedFired := true } none 5
    Ctx.background .acquired true (fun _ => rfl) (Or.inl rfl)

/-- C3: when the caller-supplied cancellation fires before the operation
completes, both cancellable waits of the core — `mu.lock` and `ping`'s wait
for the pong — close the whole connection with the wrapped cancellation
cause recorded as the close error, and return that same error; neither
leaves the connection open. -/
theorem cancelled_closes_connection (conn : Conn) (slot : MuSlot)
    (caller : Nat) (ctx : Ctx) (p : String) (cr : Bool)
    (hdone : ctx.done = true) (hf : conn.closedFired = false)
    (he : conn.closeErr = none) :
    ((muLock conn slot caller ctx .ctxDone cr).res
        = some (.wrap "failed to acquire lock" ctx.cause) ∧
      (muLock conn slot caller ctx .ctxDone cr).conn.closedFired = true ∧
      (muLock conn slot caller ctx .ctxDone cr).conn.closeErr
        = some (.wrap "failed to acquire lock" ctx.cause)) ∧
    ((conn.ping ctx p none .ctxDone).res
        = some (.wrap "failed to wait for pong" ctx.cause) ∧
      (conn.ping ctx p none .ctxDone).conn.closedFired = true ∧
      (conn.ping ctx p none .ctxDone).conn.closeErr
        = some (.wrap "failed to wait for pong" ctx.cause)) := by
  constructor
  · simp [muLock, Conn.close, Conn.isClosed, Conn.setCloseErrLocked,
      Conn.rwcClose, hf, he]
  · simp [Conn.ping, Conn.close, Conn.isClosed, Conn.setCloseErrLocked,
      Conn.rwcClose, hf, he]

/-- Witness for C3 at a concrete connection, context and payload. -/
theorem cancelled_closes_connection_witness :
    ((muLock connInit none 5 ⟨true, .base 9⟩ .ctxDone false).res
        = some (.wrap "failed to acquire lock" (Ctx.mk true (.base 9)).cause) ∧
      (muLock connInit none 5 ⟨true, .base 9⟩ .ctxDone false).conn.closedFired
        = true ∧
      (muLock connInit none 5 ⟨true, .base 9⟩ .ctxDone false).conn.closeErr
        = some (.wrap "failed to acquire lock" (Ctx.mk true (.base 9)).cause)) ∧
    ((connInit.ping ⟨true, .base 9⟩ "1" none .ctxDone).res
        = some (.wrap "failed to wait for pong" (Ctx.mk true (.base 9)).cause) ∧
      (connInit.ping ⟨true, .base 9⟩ "1" none .ctxDone).conn.closedFired
        = true ∧
      (connInit.ping ⟨true, .base 9⟩ "1" none .ctxDone).conn.closeErr
        = some (.wrap "failed to wait for pong" (Ctx.mk true (.base 9)).cause)) :=
  cancelled_closes_connection connInit none 5 ⟨true, .base 9⟩ "1" false
    rfl rfl rfl

/-- C4: the watchdog treats read and write expiry asymmetrically.  A
write-deadline expiry closes the connection with a write-timeout cause and
the loop exits; a read-deadline expiry records a read-timeout close error
and spawns an asynchronous policy-violation close-frame send, but the closed
signal does not fire and the loop keeps running. -/
theorem timeout_asymmetry (s : TLState)
    (hopen : s.conn.closedFired = false) (hno : s.conn.closeErr = none)
    (hrd : s.readCtx.done = true) (hwd : s.writeCtx.done = true) :
    (∃ c, timeoutStep s .writeTimeout = .stopped c ∧
      c.closedFired = true ∧
      c.closeErr = some (.wrap "write timed out" s.writeCtx.cause)) ∧
    (∃ s2, timeoutStep s .readTimeout = .running s2 ∧
      s2.conn.closedFired = false ∧
      s2.conn.closeErr = some (.wrap "read timed out" s.readCtx.cause) ∧
      s2.conn.policyCloseFrameSends = s.conn.policyCloseFrameSends + 1) := by
  refine ⟨⟨_, rfl, ?_, ?_⟩, ⟨_, rfl, ?_, ?_, ?_⟩⟩ <;>
    simp [timeoutStep, Conn.setCloseErr, Conn.close, Conn.isClosed,
      Conn.setCloseErrLocked, Conn.rwcClose, hopen, hno]

/-- Witness for C4 at a concrete watchdog state with both deadlines
expired. -/
theorem timeout_asymmetry_witness :
    (∃ c, timeoutStep ⟨⟨true, .base 7⟩, ⟨true, .base 8⟩, connInit⟩ .writeTimeout
        = .stopped c ∧
      c.closedFired = true ∧
      c.closeErr = some (.wrap "write timed out" (.base 8))) ∧
    (∃ s2, timeoutStep ⟨⟨true, .base 7⟩, ⟨true, .base 8⟩, connInit⟩ .readTimeout
        = .running s2 ∧
      s2.conn.closedFired = false ∧
      s2.conn.closeErr = some (.wrap "read timed out" (.base 7)) ∧
      s2.conn.policyCloseFrameSends = connInit.policyCloseFrameSends + 1) :=
  timeout_asymmetry ⟨⟨true, .base 7⟩, ⟨true, .base 8⟩, connInit⟩
    rfl rfl rfl rfl

/-- While the watchdog is still running, the deadline contexts it holds are
exactly the most recently installed ones: each installation fully replaces
the previous deadline. -/
theorem timeoutRun_running_ctx (evs : List TLEvent) :
    ∀ s s2 : TLState, timeoutRun s evs = .running s2 →
      s2.readCtx = lastReadCtx s.readCtx evs ∧
      s2.writeCtx = lastWriteCtx s.writeCtx evs := by
  induction evs with
  | nil =>
      intro s s2 h
      simp only [timeoutRun] at h
      cases h
      exact ⟨rfl, rfl⟩
  | cons ev evs ih =>
      intro s s2 h
      cases ev with
      | closed => simp [timeoutRun, timeoutStep] at h
      | newWrite c =>
          simp only [timeoutRun, timeoutStep] at h
          simpa [lastReadCtx, lastWriteCtx] using ih _ _ h
      | newRead c =>
          simp only [timeoutRun, timeoutStep] at h
          simpa [lastReadCtx, lastWriteCtx] using ih _ _ h
      | readTimeout =>
          simp only [timeoutRun, timeoutStep] at h
          simpa [lastReadCtx, lastWriteCtx] using ih _ _ h
      | writeTimeout => simp [timeoutRun, timeoutStep] at h

/-- C5: deadline installation fully replaces the previous deadline.  If the
watchdog is still running after any sequence of events, the deadline
contexts it holds are the most recently installed read and write deadlines,
and a read-deadline expiry at that point records the timeout error derived
from that most recent deadline — an earlier, superseded deadline can no
longer trigger the expiry action. -/
theorem deadline_replacement (s : TLState) (evs : List TLEvent) (s2 : TLState)
    (h : timeoutRun s evs = .running s2) :
    s2.readCtx = lastReadCtx s.readCtx evs ∧
    s2.writeCtx = lastWriteCtx s.writeCtx evs ∧
    (s2.conn.closeErr = none →
      ∃ s3, timeoutStep s2 .readTimeout = .running s3 ∧
        s3.conn.closeErr
          = some (.wrap "read timed out" (lastReadCtx s.readCtx evs).cause)) := by
  obtain ⟨h1, h2⟩ := timeoutRun_running_ctx evs s s2 h
  refine ⟨h1, h2, fun hno => ⟨_, rfl, ?_⟩⟩
  simp [timeoutStep, Conn.setCloseErr, Conn.setCloseErrLocked, hno, h1]

/-- Witness for C5: of two read deadlines installed in sequence, only the
second remains in force. -/
theorem deadline_replacement_witness :
    (TLState.mk ⟨true, .base 2⟩ Ctx.background connInit).readCtx
      = lastReadCtx Ctx.background [.newRead ⟨false, .base 1⟩, .newRead ⟨true, .base 2⟩] ∧
    (TLState.mk ⟨true, .base 2⟩ Ctx.background connInit).writeCtx
      = lastWriteCtx Ctx.background [.newRead ⟨false, .base 1⟩, .newRead ⟨true, .base 2⟩] ∧
    ((TLState.mk ⟨true, .base 2⟩ Ctx.background connInit).conn.closeErr = none →
      ∃ s3, timeoutStep (TLState.mk ⟨true, .base 2⟩ Ctx.background connInit) .readTimeout
          = .running s3 ∧
        s3.conn.closeErr = some (.wrap "read timed out"
          (lastReadCtx Ctx.background
            [.newRead ⟨false, .base 1⟩, .newRead ⟨true, .base 2⟩]).cause)) :=
  deadline_replacement ⟨Ctx.background, Ctx.background, connInit⟩
    [.newRead ⟨false, .base 1⟩, .newRead ⟨true, .base 2⟩]
    ⟨⟨true, .base 2⟩, Ctx.background, connInit⟩ (by decide)

/-- Closing a connection never touches the ping tracker. -/
theorem Conn.close_activePings (c : Conn) (err : Option Err) :
    (c.close err).activePings = c.activePings := by
  unfold Conn.close
  split
  · rfl
  · cases err <;>
      simp [Conn.setCloseErrLocked, Conn.rwcClose] <;> split <;> rfl

/-- C6: ping-tracker hygiene.  Every call to `ping` first registers its pong
sink under the payload, then attempts the send (the trace is always
register, send, deregister in that order), and on every exit path — send
failure, connection closed, cancellation, or pong received — the deferred
deletion removes the payload's registration, leaving every other payload's
registration untouched. -/
theorem ping_tracker_hygiene (conn : Conn) (ctx : Ctx) (p : String)
    (sendErr : Option Err) (w : PingWait) :
    p ∉ (conn.ping ctx p sendErr w).conn.activePings ∧
    (∀ q, q ≠ p →
      (q ∈ (conn.ping ctx p sendErr w).conn.activePings ↔
        q ∈ conn.activePings)) ∧
    (conn.ping ctx p sendErr w).trace = [.register p, .send p, .deregister p] := by
  have hmem : ∀ (l : List String) (q : String), q ≠ p →
      (q ∈ pingsErase p (pingsInsert p l) ↔ q ∈ l) := by
    intro l q hq
    simp only [pingsErase, pingsInsert, List.mem_filter]
    by_cases hp : p ∈ l <;> simp [hp, hq]
  have hout : ∀ l : List String, p ∉ pingsErase p l := by
    intro l
    simp [pingsErase, List.mem_filter]
  cases sendErr with
  | some e =>
      refine ⟨by simp only [Conn.ping]; exact hout _, fun q hq => ?_, rfl⟩
      simpa [Conn.ping] using hmem conn.activePings q hq
  | none =>
      cases w with
      | closed =>
          refine ⟨by simp only [Conn.ping]; exact hout _, fun q hq => ?_, rfl⟩
          simpa [Conn.ping] using hmem conn.activePings q hq
      | ctxDone =>
          refine ⟨by simp only [Conn.ping]; exact hout _, fun q hq => ?_, rfl⟩
          simp only [Conn.ping, Conn.close_activePings]
          exact hmem conn.activePings q hq
      | pong =>
          refine ⟨by simp only [Conn.ping]; exact hout _, fun q hq => ?_, rfl⟩
          simpa [Conn.ping] using hmem conn.activePings q hq

/-- C7: `mu.unlock` is total and idempotent — releasing an unheld lock hits
the select's default branch, a no-op that cannot block or fail, and
releasing twice in a row leaves the same state as releasing once. -/
theorem muUnlock_idempotent :
    muUnlock none = none ∧
    (∀ s : MuSlot, muUnlock (muUnlock s) = muUnlock s) := by
  refine ⟨rfl, fun s => ?_⟩
  cases s <;> rfl

/-- C9: `mu.unlock` is not holder-checked.  The token is ownerless: after
task `a` acquires the lock, task `b` — which never acquired it — can call
`unlock`, emptying the slot (the `unlock` embedding takes no caller
identity at all), after which `b` can itself acquire the lock. -/
theorem muUnlock_ignores_holder (a b : Nat) (hab : a ≠ b) :
    muTryLock a none = (true, some a) ∧
    muUnlock (some a) = none ∧
    muTryLock b (muUnlock (some a)) = (true, some b) :=
  ⟨rfl, rfl, rfl⟩

/-- Witness for C9 with two concrete distinct task identities. -/
theorem muUnlock_ignores_holder_witness :
    muTryLock 0 none = (true, some 0) ∧
    muUnlock (some 0) = none ∧
    muTryLock 1 (muUnlock (some 0)) = (true, some 1) :=
  muUnlock_ignores_holder 0 1 (by decide)

/-- C8 counterexample: a configuration with compression disabled (`copts` is
nil) and threshold 0 keeps threshold 0 — `newConn` does not derive 128/512,
because the derivation is guarded by `c.flate()`. -/
theorem flate_threshold_counterexample :
    (ConnConfig.mk "" false false 0).flateThreshold = 0 ∧
    newConnFlateThreshold (ConnConfig.mk "" false false 0) true = 0 ∧
    newConnFlateThreshold (ConnConfig.mk "" false false 0) true ≠ 128 ∧
    newConnFlateThreshold (ConnConfig.mk "" false false 0) false ≠ 512 := by
  refine ⟨rfl, rfl, ?_, ?_⟩ <;> decide

/-- C8 (amended): for every configuration with compression enabled (non-nil
compression options) whose threshold is 0, `newConn` derives the threshold
as 128 bytes if the frame writer supports context takeover and 512 bytes
otherwise. -/
theorem flate_threshold_default (cfg : ConnConfig) (takeover : Bool)
    (hc : cfg.hasCopts = true) (h0 : cfg.flateThreshold = 0) :
    newConnFlateThreshold cfg takeover = if takeover then 128 else 512 := by
  cases takeover <;> simp [newConnFlateThreshold, hc, h0]

/-- Witness for the amended C8 at concrete configurations, one per takeover
mode. -/
theorem flate_threshold_default_witness :
    newConnFlateThreshold (ConnConfig.mk "" false true 0) true = 128 ∧
    newConnFlateThreshold (ConnConfig.mk "" false true 0) false = 512 :=
  ⟨flate_threshold_default (ConnConfig.mk "" false true 0) true rfl rfl,
    flate_threshold_default (ConnConfig.mk "" false true 0) false rfl rfl⟩

/-! Decimal-rendering lemmas for the ping-payload claim. -/

/-- `undigits` is a left inverse of the fuelled digit extraction whenever
the fuel covers the value. -/
theorem undigits_digitsRevAux :
    ∀ fuel n : Nat, n ≤ fuel → undigits (digitsRevAux fuel n) = n := by
  intro fuel
  induction fuel with
  | zero =>
      intro n h
      have : n = 0 := Nat.le_zero.mp h
      simp [this, digitsRevAux, undigits]
  | succ f ih =>
      intro n h
      by_cases h0 : n = 0
      · simp [h0, digitsRevAux, undigits]
      · have hf : n / 10 ≤ f := by omega
        simp only [digitsRevAux, h0, if_false, undigits, ih _ hf]
        omega

/-- `undigits` inverts `digitsRev`. -/
theorem undigits_digitsRev (n : Nat) : undigits (digitsRev n) = n :=
  undigits_digitsRevAux n n le_rfl

/-- Every extracted decimal digit is below ten. -/
theorem digitsRevAux_lt_ten :
    ∀ fuel n d : Nat, d ∈ digitsRevAux fuel n → d < 10 := by
  intro fuel
  induction fuel with
  | zero => intro n d hd; simp [digitsRevAux] at hd
  | succ f ih =>
      intro n d hd
      by_cases h0 : n = 0
      · simp [digitsRevAux, h0] at hd
      · simp only [digitsRevAux, h0, if_false, List.mem_cons] at hd
        rcases hd with h | h
        · omega
        · exact ih _ _ h

/-- Every digit of `digitsRev` is below ten. -/
theorem digitsRev_lt_ten (n d : Nat) (hd : d ∈ digitsRev n) : d < 10 :=
  digitsRevAux_lt_ten n n d hd

/-- Decimal digit characters below ten are distinct. -/
theorem digitChar_inj_lt :
    ∀ d1 : Nat, d1 < 10 → ∀ d2 : Nat, d2 < 10 →
      Nat.digitChar d1 = Nat.digitChar d2 → d1 = d2 := by decide

/-- Decimal digit characters are never the minus sign. -/
theorem digitChar_ne_minus : ∀ d : Nat, d < 10 → Nat.digitChar d ≠ '-' := by
  decide

/-- Only the digit zero renders as the character zero. -/
theorem digitChar_eq_zero : ∀ d : Nat, d < 10 → Nat.digitChar d = '0' → d = 0 := by
  decide

/-- Mapping `digitChar` over lists of digits below ten is injective. -/
theorem map_digitChar_inj :
    ∀ l1 l2 : List Nat, (∀ d ∈ l1, d < 10) → (∀ d ∈ l2, d < 10) →
      l1.map Nat.digitChar = l2.map Nat.digitChar → l1 = l2 := by
  intro l1
  induction l1 with
  | nil =>
      intro l2 _ _ h
      cases l2 with
      | nil => rfl
      | cons e l2 => simp at h
  | cons d l ih =>
      intro l2 h1 h2 h
      cases l2 with
      | nil => simp at h
      | cons e l2 =>
          simp only [List.map_cons, List.cons.injEq] at h
          have hd : d < 10 := h1 d (List.mem_cons_self d l)
          have he : e < 10 := h2 e (List.mem_cons_self e l2)
          have hde : d = e := digitChar_inj_lt d hd e he h.1
          have htl : l = l2 :=
            ih l2 (fun x hx => h1 x (List.mem_cons_of_mem d hx))
              (fun x hx => h2 x (List.mem_cons_of_mem e hx)) h.2
          rw [hde, htl]

/-- The decimal rendering of a magnitude determines the magnitude. -/
theorem natToDecimal_inj (m n : Nat) (h : natToDecimal m = natToDecimal n) :
    m = n := by
  unfold natToDecimal at h
  by_cases hm : m = 0 <;> by_cases hn : n = 0
  · rw [hm, hn]
  · exfalso
    simp only [hm, if_true, hn, if_false] at h
    cases hrev : (digitsRev n).reverse with
    | nil => rw [hrev] at h; simp at h
    | cons d ds =>
        rw [hrev] at h
        simp only [List.map_cons, List.cons.injEq] at h
        have hdn : d ∈ digitsRev n := by
          rw [← List.mem_reverse, hrev]; exact List.mem_cons_self d ds
        have hd10 : d < 10 := digitsRev_lt_ten n d hdn
        have hd0 : d = 0 := digitChar_eq_zero d hd10 h.1.symm
        have hds : ds.map Nat.digitChar = [] := h.2.symm
        have hds0 : ds = [] := by
          cases ds with
          | nil => rfl
          | cons x xs => simp at hds
        have : digitsRev n = [0] := by
          have hr : (digitsRev n).reverse = List.reverse [0] := by
            rw [hrev, hds0, hd0]; rfl
          exact List.reverse_injective hr
        have : n = 0 := by
          have hu := undigits_digitsRev n
          rw [this] at hu
          simpa [undigits] using hu.symm
        exact hn this
  · exfalso
    simp only [hm, if_false, hn, if_true] at h
    cases hrev : (digitsRev m).reverse with
    | nil => rw [hrev] at h; simp at h
    | cons d ds =>
        rw [hrev] at h
        simp only [List.map_cons, List.cons.injEq] at h
        have hdm : d ∈ digitsRev m := by
          rw [← List.mem_reverse, hrev]; exact List.mem_cons_self d ds
        have hd10 : d < 10 := digitsRev_lt_ten m d hdm
        have hd0 : d = 0 := digitChar_eq_zero d hd10 h.1
        have hds : ds.map Nat.digitChar = [] := h.2
        have hds0 : ds = [] := by
          cases ds with
          | nil => rfl
          | cons x xs => simp at hds
        have : digitsRev m = [0] := by
          have hr : (digitsRev m).reverse = List.reverse [0] := by
            rw [hrev, hds0, hd0]; rfl
          exact List.reverse_injective hr
        have : m = 0 := by
          have hu := undigits_digitsRev m
          rw [this] at hu
          simpa [undigits] using hu.symm
        exact hm this
  · simp only [hm, if_false, hn, if_false] at h
    have hmap : (digitsRev m).reverse = (digitsRev n).reverse :=
      map_digitChar_inj _ _
        (fun d hd => digitsRev_lt_ten m d (List.mem_reverse.mp hd))
        (fun d hd => digitsRev_lt_ten n d (List.mem_reverse.mp hd)) h
    have hdig : digitsRev m = digitsRev n := List.reverse_injective hmap
    have := undigits_digitsRev m
    rw [hdig, undigits_digitsRev n] at this
    exact this.symm

/-- A decimal magnitude rendering never starts with a minus sign. -/
theorem natToDecimal_ne_minus_cons (n : Nat) (cs : List Char) :
    natToDecimal n ≠ '-' :: cs := by
  unfold natToDecimal
  by_cases h0 : n = 0
  · simp [h0]
  · simp only [h0, if_false]
    intro h
    cases hrev : (digitsRev n).reverse with
    | nil => rw [hrev] at h; simp at h
    | cons d ds =>
        rw [hrev] at h
        simp only [List.map_cons, List.cons.injEq] at h
        have hdn : d ∈ digitsRev n := by
          rw [← List.mem_reverse, hrev]; exact List.mem_cons_self d ds
        exact digitChar_ne_minus d (digitsRev_lt_ten n d hdn) h.1

/-- Go's `strconv.Itoa` is injective: distinct signed values render as
distinct decimal strings. -/
theorem itoa_inj (a b : Int) (h : itoa a = itoa b) : a = b := by
  unfold itoa at h
  by_cases ha : a < 0 <;> by_cases hb : b < 0
  · rw [if_pos ha, if_pos hb] at h
    have hd : '-' :: natToDecimal a.natAbs = '-' :: natToDecimal b.natAbs :=
      congrArg String.data h
    injection hd with h1 h2
    have : a.natAbs = b.natAbs := natToDecimal_inj _ _ h2
    omega
  · rw [if_pos ha, if_neg hb] at h
    have hd : '-' :: natToDecimal a.natAbs = natToDecimal b.toNat :=
      congrArg String.data h
    exact absurd hd.symm (natToDecimal_ne_minus_cons b.toNat _)
  · rw [if_neg ha, if_pos hb] at h
    have hd : natToDecimal a.toNat = '-' :: natToDecimal b.natAbs :=
      congrArg String.data h
    exact absurd hd (natToDecimal_ne_minus_cons a.toNat _)
  · rw [if_neg ha, if_neg hb] at h
    have hd : natToDecimal a.toNat = natToDecimal b.toNat :=
      congrArg String.data h
    have : a.toNat = b.toNat := natToDecimal_inj _ _ hd
    omega

/-- Distinct counter values in a window shorter than the wrap period have
distinct low-32-bit signed interpretations. -/
theorem toInt32_inj_window (i j : Nat) (hij : i < j) (hw : j - i < 2 ^ 32) :
    toInt32 i ≠ toInt32 j := by
  unfold toInt32
  have hmod : i % 2 ^ 32 ≠ j % 2 ^ 32 := by omega
  split <;> split <;> intro h <;> omega

/-- The low-32-bit signed interpretation has period exactly two to the
thirty-second. -/
theorem toInt32_period (k : Nat) : toInt32 (k + 2 ^ 32) = toInt32 k := by
  unfold toInt32
  rw [Nat.add_mod_right]

/-- C10: auto-generated ping payloads are the decimal rendering of the
atomically incremented signed 32-bit counter.  Payloads of two calls are
distinct whenever fewer than two to the thirty-second increments separate
them, the increment following the first two-to-the-thirty-first-minus-one
increments wraps the signed counter negative, and after exactly two to the
thirty-second further increments the payload repeats, so uniqueness among
outstanding pings holds only while the counter has not wrapped back onto a
still-outstanding value. -/
theorem ping_payload_uniqueness (i j k : Nat) (hi : 0 < i) (hij : i < j)
    (hw : j - i < 2 ^ 32) :
    pingPayload i ≠ pingPayload j ∧
    pingPayload (k + 2 ^ 32) = pingPayload k ∧
    toInt32 (2 ^ 31 - 1) = 2 ^ 31 - 1 ∧
    toInt32 (2 ^ 31 - 1 + 1) = -(2 ^ 31) := by
  refine ⟨?_, ?_, by decide, by decide⟩
  · intro h
    exact toInt32_inj_window i j hij hw (itoa_inj _ _ h)
  · unfold pingPayload
    rw [toInt32_period]

/-- Witness for C10: the payloads of the first and second ping differ, and
the payload of call five plus the wrap period equals that of call five. -/
theorem ping_payload_uniqueness_witness :
    pingPayload 1 ≠ pingPayload 2 ∧
    pingPayload (5 + 2 ^ 32) = pingPayload 5 ∧
    toInt32 (2 ^ 31 - 1) = 2 ^ 31 - 1 ∧
    toInt32 (2 ^ 31 - 1 + 1) = -(2 ^ 31) :=
  ping_payload_uniqueness 1 2 5 (by decide) (by decide) (by decide)

end Websocket
